import Mathlib

/-!
# Verification of the Puerro virtual-DOM core

Shallow embedding of the virtual-DOM rendering and reconciliation engine of
the IP5-Puerro repository:

* the Node Model constructor `vNode`/`h` (src/unnamed/part_000, lines 1675-1680),
* the node comparison `changed` (lines 1736-1752),
* the materializer `render` together with `createDomElement` (lines 1690-1700
  and 1651-1664, identical to src/puerro/util/dom.js lines 35-45),
* the ordinal tree differ `diff` (lines 1710-1728, identical in behaviour to
  src/puerro/util/dom.js lines 55-73),
* the component runtime pieces `createComponent`, `renderComponent` and the
  scheduler `enqueueRender` (lines 654-676, 720-848, 320-324).

JavaScript values appearing as attribute values are modelled by `AttrVal`;
virtual-DOM values (a node object, a string, a number, or `null`/`undefined`)
are modelled by `VNode`, where `VNode.vnull` stands for both `null` and
`undefined` (the source only ever distinguishes them through `==`/`!=`
comparisons against `null`, which identify the two).  Live DOM nodes are
modelled by `DomNode`; DOM mutation is modelled by state passing, and a DOM
operation that would throw (e.g. `appendChild` on `undefined`) is modelled by
an `Option` result, `none` standing for the thrown exception.
-/

/-- A JavaScript value stored in an attribute mapping: a string, a number, a
boolean, `null`/`undefined` (collapsed, see the module comment), or a function
(a callable); a function carries its object identity `id` and its source text
`src` (which is what `Function.prototype.toString` returns). -/
inductive AttrVal where
  | str (s : String)
  | num (n : Int)
  | bool (b : Bool)
  | null
  | fn (id : Nat) (src : String)
deriving DecidableEq, Repr

/-- A value that may appear in a virtual-DOM position: `null`/`undefined`
(`vnull`), a string, a number, or a node object `{ tagName, attributes,
children }` as produced by `vNode`.  The attribute mapping is an ordered
association list mirroring a JavaScript object's own enumerable keys (a real
object's keys are pairwise distinct). -/
inductive VNode where
  | vnull
  | text (s : String)
  | num (n : Int)
  | elem (tagName : String) (attributes : List (String × AttrVal)) (children : List VNode)

namespace VNode

/-- `typeof` of the modelled value (`typeof null` is `'object'`). -/
def typeofStr : VNode → String
  | vnull => "object"
  | text _ => "string"
  | num _ => "number"
  | elem _ _ _ => "object"

/-- Whether the value is a string or a number primitive. -/
def isPrim : VNode → Bool
  | text _ => true
  | num _ => true
  | _ => false

/-- Strict inequality `node1 !== node2` as used in `changed`, where the guard
already established that `node1` is a string or a number. -/
def primStrictNe : VNode → VNode → Bool
  | text s, text t => s ≠ t
  | num m, num n => m ≠ n
  | _, _ => true

/-- The `.type` property read by `changed`.  Nothing in the repository ever
stores a `type` field on a node (`vNode` produces `{tagName, attributes,
children}`), and `typeof` of strings/numbers has no `type` property either, so
this access always yields `undefined`. -/
def typeField (_ : VNode) : Option AttrVal := none

/-- Whether `node.attributes` is truthy: only node objects carry an attribute
mapping, and a JavaScript object (even `{}`) is truthy. -/
def hasAttrs : VNode → Bool
  | elem _ _ _ => true
  | _ => false

/-- The attribute mapping of a node object (`[]` elsewhere; `changed` only
reads it under a `hasAttrs` guard). -/
def attrs : VNode → List (String × AttrVal)
  | elem _ a _ => a
  | _ => []

/-- The children of a node object (`[]` elsewhere; `diff` only reads it on
node objects). -/
def childrenOf : VNode → List VNode
  | elem _ _ cs => cs
  | _ => []

/-- Truthiness of `node.tagName`: `undefined` on strings/numbers, and the
empty string is falsy. -/
def truthyTag : VNode → Bool
  | elem t _ _ => t ≠ ""
  | _ => false

end VNode

/-- `String(v)` / `v.toString()` for an attribute value.  `String(null)` is
`"null"`; the one place `changed` stringifies a value it first replaces
`null`/`undefined` by `''` (see `normToString`). -/
def jsToString : AttrVal → String
  | .str s => s
  | .num n => toString n
  | .bool b => if b then "true" else "false"
  | .null => "null"
  | .fn _ src => src

/-- `(null == v ? '' : v).toString()` — the normalisation used by `changed`. -/
def normToString : AttrVal → String
  | .null => ""
  | v => jsToString v

/-- Strict equality `===` on attribute values (reference equality for
functions, modelled through their identity). -/
def attrStrictEq : AttrVal → AttrVal → Bool
  | .str s, .str t => s = t
  | .num m, .num n => m = n
  | .bool a, .bool b => a = b
  | .null, .null => true
  | .fn i _, .fn j _ => i = j
  | _, _ => false

/-- `Object.keys` of an attribute mapping (insertion order). -/
def jsKeys (m : List (String × AttrVal)) : List String := m.map Prod.fst

/-- `m[k]`: property lookup; a missing key reads as `undefined`, which the
model collapses with `null` (the two are only ever told apart by `==` against
`null`, which identifies them). -/
def jsLookup (m : List (String × AttrVal)) (k : String) : AttrVal :=
  match m.find? (fun kv => kv.1 = k) with
  | some kv => kv.2
  | none => .null

/-- `changed(node1, node2)` — src/unnamed/part_000 lines 1736-1752 (the same
function also appears at lines 112-128 and in
src/huerto/04/research/diffing/dist/script.bundle.js lines 36-52):

```
const changed = (node1, node2) => {
  const nodeChanged =
    typeof node1 !== typeof node2 ||
    ((typeof node1 === 'string' || typeof node1 === 'number') && node1 !== node2) ||
    node1.type !== node2.type;
  const attributesChanged =
    !!node1.attributes && !!node2.attributes &&
    (Object.keys(node1.attributes).length !== Object.keys(node2.attributes).length ||
      Object.keys(node1.attributes).some(
        a => node1.attributes[a] !== node2.attributes[a] &&
          (null == node1.attributes[a] ? '' : node1.attributes[a]).toString() !==
          (null == node2.attributes[a] ? '' : node2.attributes[a]).toString()));
  return nodeChanged || attributesChanged;
};
```

Note `node1.type !== node2.type` reads a `type` property that is never set
anywhere in the repository (`vNode` stores the tag under `tagName`), so both
sides are always `undefined` and the disjunct is always false. -/
def changed (node1 node2 : VNode) : Bool :=
  let nodeChanged :=
    (node1.typeofStr ≠ node2.typeofStr) ||
    (node1.isPrim && node1.primStrictNe node2) ||
    (node1.typeField ≠ node2.typeField)
  let attributesChanged :=
    node1.hasAttrs && node2.hasAttrs &&
    ((jsKeys node1.attrs).length ≠ (jsKeys node2.attrs).length ||
      (jsKeys node1.attrs).any (fun a =>
        !(attrStrictEq (jsLookup node1.attrs a) (jsLookup node2.attrs a)) &&
        normToString (jsLookup node1.attrs a) ≠ normToString (jsLookup node2.attrs a)))
  nodeChanged || attributesChanged

/-- An argument position in the variadic tail of `vNode(tagName, attributes,
...nodes)`: either a single virtual-DOM value or a (one-level) array of
them. -/
inductive ChildArg where
  | single (v : VNode)
  | list (vs : List VNode)

/-- `[].concat(...nodes)`: array arguments contribute their elements, all
other arguments contribute themselves. -/
def jsConcatSpread (nodes : List ChildArg) : List VNode :=
  nodes.flatMap fun
    | .single v => [v]
    | .list vs => vs

/-- `vNode(tagName, attributes = {}, ...nodes)` — src/unnamed/part_000 lines
1675-1680 (also src/huerto/04/research/diffing/dist/script.bundle.js lines
23-28):

```
const vNode = (tagName, attributes = {}, ...nodes) => ({
  tagName,
  attributes: null == attributes ? {} : attributes,
  children: null == nodes ? [] : [].concat(...nodes), // collapse nested arrays.
});
```

`attributes` is `none` when the caller passed `null` (`undefined` hits the
`= {}` default, which the `null ==` guard also catches).  The rest parameter
`nodes` is always an array, so the `null == nodes` guard is dead code and
`children` is always `[].concat(...nodes)`. -/
def vNode (tagName : String) (attributes : Option (List (String × AttrVal)))
    (nodes : List ChildArg) : VNode :=
  .elem tagName (attributes.getD []) (jsConcatSpread nodes)

/-- A live DOM node: a text node, or an element carrying the attributes set
via `setAttribute` (stringified, as the DOM does), the listeners registered
via `addEventListener` (event name and function identity), and its child
nodes. -/
inductive DomNode where
  | textNode (s : String)
  | element (tag : String) (attrs : List (String × String))
      (listeners : List (String × Nat)) (children : List DomNode)

namespace DomNode

/-- `childNodes` (a text node has none). -/
def children : DomNode → List DomNode
  | textNode _ => []
  | element _ _ _ cs => cs

/-- Replace the child list, keeping everything else (no-op on a text node;
only used where the child list of a text node is necessarily unchanged). -/
def withChildren : DomNode → List DomNode → DomNode
  | textNode s, _ => textNode s
  | element t a l _, cs => element t a l cs

end DomNode

/-- The attributes a fresh element receives in `createDomElement`
(src/unnamed/part_000 lines 1651-1664): keys with `null`/`undefined` values
are skipped, function values become listeners instead, every other value is
passed to `setAttribute`, which stores its string form. -/
def domAttrs (attrs : List (String × AttrVal)) : List (String × String) :=
  attrs.filterMap fun kv =>
    match kv.2 with
    | .null => none
    | .fn _ _ => none
    | v => some (kv.1, jsToString v)

/-- The listeners a fresh element receives in `createDomElement`: every
function-valued key is registered via `addEventListener(key, value)` under
the raw key. -/
def domListeners (attrs : List (String × AttrVal)) : List (String × Nat) :=
  attrs.filterMap fun kv =>
    match kv.2 with
    | .fn i _ => some (kv.1, i)
    | _ => none

mutual

/-- `render(node)` — src/unnamed/part_000 lines 1690-1700 (identical to
src/puerro/util/dom.js lines 35-45):

```
const render = node => {
  if (null == node) { return document.createTextNode(''); }
  if (typeof node === 'string' || typeof node === 'number') {
    return document.createTextNode(node);
  }
  const $element = createDomElement(node.tagName, node.attributes);
  node.children.forEach(c => $element.appendChild(render(c)));
  return $element;
};
```

`createTextNode` stringifies a number argument.  The recursion over the
child list is spelled out as `renderList` (equal to `List.map render`, see
`renderList_eq_map`). -/
def render : VNode → DomNode
  | .vnull => .textNode ""
  | .text s => .textNode s
  | .num n => .textNode (toString n)
  | .elem t attrs cs => .element t (domAttrs attrs) (domListeners attrs) (renderList cs)

def renderList : List VNode → List DomNode
  | [] => []
  | c :: cs => render c :: renderList cs

end

theorem renderList_eq_map (cs : List VNode) : renderList cs = cs.map render := by
  induction cs with
  | nil => rfl
  | cons c cs ih => simp [renderList, ih]

/-- `$parent.replaceChild(newDom, $parent.childNodes[index])`: overwrite
position `index`; throws (`none`) when the parent is `undefined` or has no
child there. -/
def replaceAt (parent : Option DomNode) (newDom : DomNode) (index : Nat) :
    Option (Option DomNode) :=
  match parent with
  | none => none
  | some p =>
    if index < p.children.length then
      some (some (p.withChildren (p.children.set index newDom)))
    else none

/-- The tail of `diff` for a string/number `newNode` (with `oldNode` not
`null`): the `changed` test with its `replaceChild`, then the recursion
guard `if (newNode.tagName)`, which is falsy on primitives, so nothing
further happens. -/
def diffLeafTail (parent : Option DomNode) (newNode oldNode : VNode) (index : Nat) :
    Option (Option DomNode) :=
  if changed oldNode newNode then replaceAt parent (render newNode) index
  else some parent

mutual

/-- `diff($parent, newNode, oldNode, index)` — the ordinal differ,
src/unnamed/part_000 lines 1710-1728 (src/puerro/util/dom.js lines 55-73 is
the same function with the two node parameters in the other order):

```
const diff = ($parent, newNode, oldNode, index = 0) => {
  if (null == oldNode) { $parent.appendChild(render(newNode)); return; }
  if (null == newNode) { $parent.removeChild($parent.childNodes[index]); return; }
  if (changed(oldNode, newNode)) {
    $parent.replaceChild(render(newNode), $parent.childNodes[index]); return;
  }
  if (newNode.tagName) {
    newNode.children.forEach((newNode, i) => {
      diff($parent.childNodes[index], newNode, oldNode.children[i], i);
    });
  }
};
```

The parent is `Option DomNode`, `none` standing for `undefined` (the value of
`$parent.childNodes[index]` when `index` is out of range).  The result is
`none` when the call throws: `appendChild`/`removeChild`/`replaceChild` on
`undefined` or with an `undefined` child argument throw, as does reading
`undefined.childNodes` (which the recursion does once per child of a
non-empty `newNode.children`).  Otherwise the result is the mutated parent.
`removeChild`/`replaceChild` keep `$parent.childNodes[index]`'s siblings:
they erase / overwrite exactly position `index`.  The `forEach` recursion is
`diffList`: it threads the same live child (`$parent.childNodes[index]`,
whose object identity never changes during the loop) through the child-level
diffs, pairing the `i`-th new child with `oldNode.children[i]` (`undefined`,
i.e. `vnull`, beyond the end).

The `changed`-then-fall-through tail shared by the string/number cases of
`newNode` (whose falsy `tagName` skips the recursion) is split off as the
non-recursive `diffLeafTail`, and the `replaceChild` line as `replaceAt`,
purely so the recursion is visibly structural. -/
def diff (parent : Option DomNode) (newNode oldNode : VNode) (index : Nat) :
    Option (Option DomNode) :=
  match oldNode with
  | .vnull =>
    match parent with
    | none => none
    | some (.textNode _) => none
    | some (.element t a l cs) => some (some (.element t a l (cs ++ [render newNode])))
  | _ =>
    match newNode with
    | .vnull =>
      match parent with
      | none => none
      | some p =>
        if index < p.children.length then
          some (some (p.withChildren (p.children.eraseIdx index)))
        else none
    | .text s => diffLeafTail parent (.text s) oldNode index
    | .num n => diffLeafTail parent (.num n) oldNode index
    | .elem t a newCs =>
      if changed oldNode (.elem t a newCs) then
        replaceAt parent (render (.elem t a newCs)) index
      else if t = "" then some parent
      else
        match parent with
        | none => match newCs with | [] => some none | _ :: _ => none
        | some p =>
          match diffList (p.children.get? index) newCs oldNode.childrenOf 0 with
          | none => none
          | some none => some (some p)
          | some (some c') => some (some (p.withChildren (p.children.set index c')))
termination_by sizeOf newNode

/-- `newNode.children.forEach((newNode, i) => diff($parent.childNodes[index],
newNode, oldNode.children[i], i))` — the positional recursion of `diff`.
`child` is the live node the loop operates on, `i` the position of the head
of `newCs` within the full new child list, `oldCs` the full old child
list. -/
def diffList (child : Option DomNode) (newCs oldCs : List VNode) (i : Nat) :
    Option (Option DomNode) :=
  match newCs with
  | [] => some child
  | nc :: rest =>
    match diff child nc (oldCs.getD i .vnull) i with
    | none => none
    | some child' => diffList child' rest oldCs (i + 1)
termination_by sizeOf newCs

end

/-- The simp set used to evaluate the embedded functions on concrete inputs. -/
theorem diffLeafTail_eq (parent : Option DomNode) (newNode oldNode : VNode) (index : Nat) :
    diffLeafTail parent newNode oldNode index =
      if changed oldNode newNode then replaceAt parent (render newNode) index
      else some parent := rfl

/-- **C1.**  For every two element Node Models `a` and `b` built by the node
constructor with differing tags, the claim states `changed(a,b)` is true and
patching replaces the live node.  The code does neither: `changed` compares
the never-set `type` property instead of `tagName`, so on
`h('p', {}, '1')` versus `h('span', {}, '1')` it returns `false`, and `diff`
consequently recurses into the live `<p>` element (leaving it in place,
patched text and all) instead of replacing it with a fresh `<span>`.  This
theorem evaluates the code at that failing input: `changed` yields `false`,
and diffing a root whose only child is the rendered `<p>` against the new
`<span>` node leaves the live tree entirely unchanged. -/
theorem c1_changed_false_on_differing_tags :
    changed (vNode "p" (some []) [.single (.text "1")])
            (vNode "span" (some []) [.single (.text "1")]) = false ∧
    diff (some (.element "root" [] [] [render (vNode "p" (some []) [.single (.text "1")])]))
        (vNode "span" (some []) [.single (.text "1")])
        (vNode "p" (some []) [.single (.text "1")]) 0 =
      some (some (.element "root" [] [] [.element "p" [] [] [.textNode "1"]])) := by
  constructor
  · rfl
  · simp [diff, diffList, diffLeafTail, replaceAt, changed, VNode.typeofStr, VNode.isPrim,
      VNode.typeField, VNode.hasAttrs, VNode.attrs, jsKeys, VNode.childrenOf, render,
      renderList, VNode.primStrictNe, DomNode.children, DomNode.withChildren, vNode,
      jsConcatSpread, attrStrictEq, normToString, jsLookup, jsToString, domAttrs,
      domListeners, List.getD]


/-- Unfolding of `diff` at a defined parent and a non-`null` old node: the
three remaining checks of the source, case-distinguished on the new node. -/
theorem diff_some_not_null (p : DomNode) (n o : VNode) (idx : Nat) (ho : o ≠ .vnull) :
    diff (some p) n o idx =
      match n with
      | .vnull =>
        if idx < p.children.length then
          some (some (p.withChildren (p.children.eraseIdx idx)))
        else none
      | .text s => diffLeafTail (some p) (.text s) o idx
      | .num m => diffLeafTail (some p) (.num m) o idx
      | .elem t a cs =>
        if changed o (.elem t a cs) then replaceAt (some p) (render (.elem t a cs)) idx
        else if t = "" then some (some p)
        else
          match diffList (p.children.get? idx) cs o.childrenOf 0 with
          | none => none
          | some none => some (some p)
          | some (some c') => some (some (p.withChildren (p.children.set idx c'))) := by
  cases o with
  | vnull => exact absurd rfl ho
  | text s => cases n <;> simp [diff]
  | num m => cases n <;> simp [diff]
  | elem t a cs => cases n <;> simp [diff]

/-- **C3.**  The ordinal `diff` performs exactly one of four cases, tested in
this order: (1) old node absent — materialize the new node and append it to
the parent; (2) new node absent — remove the parent's live child at `index`;
(3) `changed(old,new)` — materialize the new node and replace the live child
at `index`, with no recursion into the discarded subtree; (4) otherwise —
recurse positionally into the child pairs, which at the parent's level
touches at most the single child at `index` (the parent is either returned
unchanged or has exactly position `index` rewritten).  Cases (2) and (3)
are stated for an in-range `index` (out of range, the underlying
`removeChild`/`replaceChild` call throws). -/
theorem c3_diff_four_cases :
    (∀ (t : String) (a : List (String × String)) (l : List (String × Nat))
        (cs : List DomNode) (n : VNode) (idx : Nat),
        diff (some (.element t a l cs)) n .vnull idx =
          some (some (.element t a l (cs ++ [render n])))) ∧
    (∀ (p : DomNode) (o : VNode) (idx : Nat), o ≠ .vnull → idx < p.children.length →
        diff (some p) .vnull o idx =
          some (some (p.withChildren (p.children.eraseIdx idx)))) ∧
    (∀ (p : DomNode) (o n : VNode) (idx : Nat), o ≠ .vnull → n ≠ .vnull →
        changed o n = true → idx < p.children.length →
        diff (some p) n o idx =
          some (some (p.withChildren (p.children.set idx (render n))))) ∧
    (∀ (p : DomNode) (o n : VNode) (idx : Nat) (p' : DomNode), o ≠ .vnull → n ≠ .vnull →
        changed o n = false →
        diff (some p) n o idx = some (some p') →
        p' = p ∨ ∃ c', p' = p.withChildren (p.children.set idx c')) := by
  refine ⟨?_, ?_, ?_, ?_⟩
  · intro t a l cs n idx
    simp [diff]
  · intro p o idx ho hidx
    rw [diff_some_not_null p _ o idx ho]
    simp [hidx]
  · intro p o n idx ho hn hch hidx
    rw [diff_some_not_null p n o idx ho]
    cases n with
    | vnull => exact absurd rfl hn
    | text s => simp [diffLeafTail, replaceAt, hch, hidx]
    | num m => simp [diffLeafTail, replaceAt, hch, hidx]
    | elem t a cs => simp [replaceAt, hch, hidx]
  · intro p o n idx p' ho hn hch hdiff
    rw [diff_some_not_null p n o idx ho] at hdiff
    cases n with
    | vnull => exact absurd rfl hn
    | text s =>
      simp [diffLeafTail, hch] at hdiff
      exact Or.inl hdiff.symm
    | num m =>
      simp [diffLeafTail, hch] at hdiff
      exact Or.inl hdiff.symm
    | elem t a cs =>
      simp only [hch, Bool.false_eq_true, if_false] at hdiff
      by_cases ht : t = ""
      · simp [ht] at hdiff
        exact Or.inl hdiff.symm
      · simp only [ht, if_false] at hdiff
        rcases hres : diffList (p.children.get? idx) cs o.childrenOf 0 with _ | co
        · rw [hres] at hdiff
          exact absurd hdiff (by simp)
        · rw [hres] at hdiff
          cases co with
          | none =>
            simp at hdiff
            exact Or.inl hdiff.symm
          | some c' =>
            simp at hdiff
            exact Or.inr ⟨c', hdiff.symm⟩

/-- Witness for `c3_diff_four_cases` at concrete inputs: a removal (case 2),
a `changed` replacement (case 3), and a recursion step (case 4) on a
one-child parent. -/
theorem c3_diff_four_cases_witness :
    diff (some (.element "div" [] [] [.textNode "x"])) .vnull (.text "x") 0 =
      some (some (.element "div" [] [] [])) ∧
    diff (some (.element "div" [] [] [.textNode "x"])) (.text "y") (.text "x") 0 =
      some (some (.element "div" [] [] [.textNode "y"])) := by
  constructor
  · have h := c3_diff_four_cases.2.1 (.element "div" [] [] [.textNode "x"]) (.text "x") 0
      (by simp) (by simp [DomNode.children])
    simpa [DomNode.children, DomNode.withChildren] using h
  · have h := c3_diff_four_cases.2.2.1 (.element "div" [] [] [.textNode "x"]) (.text "x")
      (.text "y") 0 (by simp) (by simp)
      (by simp [changed, VNode.typeofStr, VNode.isPrim, VNode.primStrictNe, VNode.typeField,
        VNode.hasAttrs])
      (by simp [DomNode.children])
    simpa [DomNode.children, DomNode.withChildren, render] using h

/-- `===` is reflexive on attribute values. -/
theorem attrStrictEq_refl (v : AttrVal) : attrStrictEq v v = true := by
  cases v <;> simp [attrStrictEq]

/-- `changed(T, T)` is `false` for every node value `T`. -/
theorem changed_self (v : VNode) : changed v v = false := by
  cases v with
  | vnull => rfl
  | text s => simp [changed, VNode.typeofStr, VNode.isPrim, VNode.primStrictNe,
      VNode.typeField, VNode.hasAttrs]
  | num n => simp [changed, VNode.typeofStr, VNode.isPrim, VNode.primStrictNe,
      VNode.typeField, VNode.hasAttrs]
  | elem t a cs => simp [changed, VNode.typeofStr, VNode.isPrim, VNode.typeField,
      VNode.hasAttrs, VNode.attrs, jsKeys, attrStrictEq_refl]

/-- Setting a list position to the value it already holds is the identity. -/
theorem list_set_get_eq {α : Type} (l : List α) (i : Nat) (x : α)
    (h : l.get? i = some x) : l.set i x = l := by
  rw [List.get?_eq_getElem?] at h
  induction l generalizing i with
  | nil => simp at h
  | cons b l ih =>
    cases i with
    | zero => simp at h; simp [h]
    | succ j => simp at h; simp [List.set, ih j h]

/-- Replacing a node's child list by its own child list is the identity. -/
theorem withChildren_self (p : DomNode) : p.withChildren p.children = p := by
  cases p <;> rfl

mutual

/-- Whether a node value is non-`null` and, recursively, free of
`null`/`undefined` children. -/
def noNilChild : VNode → Bool
  | .vnull => false
  | .text _ => true
  | .num _ => true
  | .elem _ _ cs => noNilChildList cs

def noNilChildList : List VNode → Bool
  | [] => true
  | c :: cs => noNilChild c && noNilChildList cs

end

theorem noNilChildList_mem {cs : List VNode} {c : VNode}
    (h : noNilChildList cs = true) (hc : c ∈ cs) : noNilChild c = true := by
  induction cs with
  | nil => cases hc
  | cons b cs ih =>
    rw [noNilChildList, Bool.and_eq_true] at h
    rcases List.mem_cons.mp hc with rfl | hc
    · exact h.1
    · exact ih h.2 hc

/-- The positional recursion of `diff` over the (identical) child pairs of an
unchanged node is a no-op on the live node `L`, provided `L` materializes the
child list being diffed.  `IH` is the induction hypothesis for the
children. -/
theorem diffList_self_aux (full : List VNode) (L : DomNode)
    (hL : L.children = full.map render)
    (IH : ∀ c ∈ full, ∀ (q : DomNode) (j : Nat), q.children.get? j = some (render c) →
      diff (some q) c c j = some (some q)) :
    ∀ (cs : List VNode) (i : Nat), cs = full.drop i →
      diffList (some L) cs full i = some (some L) := by
  intro cs
  induction cs with
  | nil =>
    intro i _
    simp [diffList]
  | cons c rest ih =>
    intro i h
    have hget : full[i]? = some c := by
      have h0 := List.getElem?_drop full i 0
      rw [← h] at h0
      simpa using h0.symm
    have hgetD : full.getD i .vnull = c := by
      simp [List.getD_eq_getElem?_getD, hget]
    have hLi : L.children.get? i = some (render c) := by
      rw [List.get?_eq_getElem?, hL]
      simp [List.getElem?_map, hget]
    have hstep := IH c (List.getElem?_mem hget) L i hLi
    have hrest : rest = full.drop (i + 1) := by
      have : (full.drop i).drop 1 = full.drop (i + 1) := by
        rw [List.drop_drop]
      rw [← this, ← h]
      simp
    rw [diffList, hgetD, hstep]
    exact ih (i + 1) hrest

/-- Bounded-size version of `diff_self_of_render`, for the strong induction
on the node size. -/
theorem diff_self_of_render_aux : ∀ (N : Nat) (T : VNode), sizeOf T ≤ N →
    noNilChild T = true → ∀ (p : DomNode) (idx : Nat),
    p.children.get? idx = some (render T) → diff (some p) T T idx = some (some p) := by
  intro N
  induction N with
  | zero =>
    intro T hsz
    cases T <;> simp at hsz
  | succ N ihN =>
    intro T hsz hT p idx hp
    cases T with
    | vnull => simp [noNilChild] at hT
    | text s =>
      rw [diff_some_not_null _ _ _ _ (by simp)]
      simp [diffLeafTail, changed_self]
    | num n =>
      rw [diff_some_not_null _ _ _ _ (by simp)]
      simp [diffLeafTail, changed_self]
    | elem t a cs =>
      rw [diff_some_not_null _ _ _ _ (by simp)]
      simp only [changed_self, Bool.false_eq_true, if_false]
      by_cases ht : t = ""
      · simp [ht]
      · simp only [ht, if_false]
        have hIH : ∀ c ∈ cs, ∀ (q : DomNode) (j : Nat),
            q.children.get? j = some (render c) → diff (some q) c c j = some (some q) := by
          intro c hc q j hq
          have hszc : sizeOf c ≤ N := by
            have h1 : sizeOf c < sizeOf cs := List.sizeOf_lt_of_mem hc
            have h2 : sizeOf (VNode.elem t a cs) ≤ N + 1 := hsz
            simp only [VNode.elem.sizeOf_spec] at h2
            omega
          exact ihN c hszc
            (noNilChildList_mem (by simpa [noNilChild] using hT) hc) q j hq
        have hlist := diffList_self_aux cs (render (.elem t a cs))
          (by simp [render, renderList_eq_map, DomNode.children]) hIH cs 0 (by simp)
        rw [hp, VNode.childrenOf, hlist]
        simp [list_set_get_eq p.children idx (render (.elem t a cs)) hp, withChildren_self]

/-- Diffing a node value against itself leaves the live tree unchanged,
provided the value contains no `null`/`undefined` child anywhere and the live
child at `index` materializes it. -/
theorem diff_self_of_render (T : VNode) (hT : noNilChild T = true) (p : DomNode)
    (idx : Nat) (hp : p.children.get? idx = some (render T)) :
    diff (some p) T T idx = some (some p) :=
  diff_self_of_render_aux (sizeOf T) T le_rfl hT p idx hp

/-- **C4 (counterexample).**  The claim says diffing any Node Model `T`
against itself performs zero structural mutations.  It fails when `T`
contains a `null` child: the recursion pairs the `null` new child with the
`null` old child, the `null == oldNode` test fires first, and an empty text
node is appended to the live child.  Concretely, for
`T = h('div', {}, null)` (whose materialization is a `<div>` with one empty
text node) the re-render grows the live `<div>` to two text children. -/
theorem c4_idempotence_counterexample :
    render (vNode "div" (some []) [ChildArg.single VNode.vnull]) =
      DomNode.element "div" [] [] [DomNode.textNode ""] ∧
    diff (some (DomNode.element "root" [] [] [DomNode.element "div" [] [] [DomNode.textNode ""]]))
        (vNode "div" (some []) [ChildArg.single VNode.vnull])
        (vNode "div" (some []) [ChildArg.single VNode.vnull]) 0 =
      some (some (DomNode.element "root" [] []
        [DomNode.element "div" [] [] [DomNode.textNode "", DomNode.textNode ""]])) ∧
    DomNode.element "root" [] []
        [DomNode.element "div" [] [] [DomNode.textNode "", DomNode.textNode ""]] ≠
      DomNode.element "root" [] [] [DomNode.element "div" [] [] [DomNode.textNode ""]] := by
  refine ⟨rfl, ?_, by simp⟩
  simp [diff, diffList, diffLeafTail, replaceAt, changed, VNode.typeofStr, VNode.isPrim,
    VNode.typeField, VNode.hasAttrs, VNode.attrs, jsKeys, VNode.childrenOf, render,
    renderList, VNode.primStrictNe, DomNode.children, DomNode.withChildren, vNode,
    jsConcatSpread, attrStrictEq, normToString, jsLookup, jsToString, domAttrs,
    domListeners, List.getD]

/-- **C4 (amended).**  Patching a live tree from `T` to the identical Node
Model `T` is a structural no-op, provided `T` contains no `null`/`undefined`
child at any depth and the live child at the given position is the
materialization of `T`: `diff` then returns the parent unchanged — no live
child is removed, inserted, or replaced at any level.  (With a `null` child
the source appends an empty text node to the corresponding live node, see
the counterexample.) -/
theorem c4_diff_self_structural_noop (T : VNode) (p : DomNode) (idx : Nat)
    (hT : noNilChild T = true) (hp : p.children.get? idx = some (render T)) :
    diff (some p) T T idx = some (some p) :=
  diff_self_of_render T hT p idx hp

/-- Witness for `c4_diff_self_structural_noop`: a `<div>` with a text child
and an attribute, diffed against itself over its own materialization. -/
theorem c4_diff_self_structural_noop_witness :
    diff (some (DomNode.element "root" [] []
        [DomNode.element "div" [("id", "a")] [] [DomNode.textNode "hi"]]))
        (VNode.elem "div" [("id", AttrVal.str "a")] [VNode.text "hi"])
        (VNode.elem "div" [("id", AttrVal.str "a")] [VNode.text "hi"]) 0 =
      some (some (DomNode.element "root" [] []
        [DomNode.element "div" [("id", "a")] [] [DomNode.textNode "hi"]])) :=
  c4_diff_self_structural_noop
    (VNode.elem "div" [("id", AttrVal.str "a")] [VNode.text "hi"])
    (DomNode.element "root" [] []
      [DomNode.element "div" [("id", "a")] [] [DomNode.textNode "hi"]]) 0
    (by rfl)
    (by simp [DomNode.children, render, renderList, domAttrs, domListeners, jsToString])

/-- Rewriting one child position (then reassembling) preserves the child
count and every other position. -/
theorem withChildren_set_frame (L : DomNode) (i : Nat) (c' : DomNode) :
    (L.withChildren (L.children.set i c')).children.length = L.children.length ∧
    ∀ j, j ≠ i → (L.withChildren (L.children.set i c')).children.get? j =
      L.children.get? j := by
  cases L with
  | textNode s => simp [DomNode.withChildren, DomNode.children]
  | element t a l cs =>
    refine ⟨by simp [DomNode.withChildren, DomNode.children], ?_⟩
    intro j hj
    simp [DomNode.withChildren, DomNode.children, List.get?_eq_getElem?,
      List.getElem?_set_ne (Ne.symm hj)]

/-- `replaceAt` at a defined parent. -/
theorem replaceAt_some_eq (p : DomNode) (d : DomNode) (i : Nat) :
    replaceAt (some p) d i =
      if i < p.children.length then some (some (p.withChildren (p.children.set i d)))
      else none := rfl

/-- `diff` at a defined parent, non-`null` old node and string new node. -/
theorem diff_some_text (p : DomNode) (o : VNode) (s : String) (idx : Nat)
    (ho : o ≠ .vnull) :
    diff (some p) (.text s) o idx = diffLeafTail (some p) (.text s) o idx := by
  rw [diff_some_not_null _ _ _ _ ho]

/-- `diff` at a defined parent, non-`null` old node and number new node. -/
theorem diff_some_num (p : DomNode) (o : VNode) (m : Int) (idx : Nat)
    (ho : o ≠ .vnull) :
    diff (some p) (.num m) o idx = diffLeafTail (some p) (.num m) o idx := by
  rw [diff_some_not_null _ _ _ _ ho]

/-- `diff` at a defined parent, non-`null` old node and element new node. -/
theorem diff_some_elem (p : DomNode) (o : VNode) (t : String)
    (a : List (String × AttrVal)) (cs : List VNode) (idx : Nat) (ho : o ≠ .vnull) :
    diff (some p) (.elem t a cs) o idx =
      if changed o (.elem t a cs) then replaceAt (some p) (render (.elem t a cs)) idx
      else if t = "" then some (some p)
      else
        match diffList (p.children.get? idx) cs o.childrenOf 0 with
        | none => none
        | some none => some (some p)
        | some (some c') => some (some (p.withChildren (p.children.set idx c'))) := by
  rw [diff_some_not_null _ _ _ _ ho]

/-- One step of the positional recursion with a non-`null` new child never
removes a live child of `L`: the child count cannot shrink, and every
position other than `i` is untouched. -/
theorem diff_step_frame (L : DomNode) (nc oc : VNode) (i : Nat) (L' : DomNode)
    (hnc : nc ≠ .vnull)
    (hd : diff (some L) nc oc i = some (some L')) :
    L.children.length ≤ L'.children.length ∧
    ∀ j, j ≠ i → j < L.children.length → L'.children.get? j = L.children.get? j := by
  by_cases hoc : oc = .vnull
  · subst hoc
    cases L with
    | textNode s => simp [diff] at hd
    | element t a l cs =>
      simp [diff] at hd
      subst hd
      refine ⟨by simp [DomNode.children], ?_⟩
      intro j _ hjl
      simp [DomNode.children] at hjl ⊢
      rw [List.getElem?_append]
      simp [hjl]
  · cases nc with
    | vnull => exact absurd rfl hnc
    | text s =>
      rw [diff_some_text _ _ _ _ hoc, diffLeafTail_eq] at hd
      split at hd
      · rw [replaceAt_some_eq] at hd
        split at hd
        · simp only [Option.some.injEq] at hd
          subst hd
          have hf := withChildren_set_frame L i (render (.text s))
          exact ⟨le_of_eq hf.1.symm, fun j hj _ => hf.2 j hj⟩
        · simp at hd
      · simp only [Option.some.injEq] at hd
        subst hd
        exact ⟨le_rfl, fun _ _ _ => rfl⟩
    | num m =>
      rw [diff_some_num _ _ _ _ hoc, diffLeafTail_eq] at hd
      split at hd
      · rw [replaceAt_some_eq] at hd
        split at hd
        · simp only [Option.some.injEq] at hd
          subst hd
          have hf := withChildren_set_frame L i (render (.num m))
          exact ⟨le_of_eq hf.1.symm, fun j hj _ => hf.2 j hj⟩
        · simp at hd
      · simp only [Option.some.injEq] at hd
        subst hd
        exact ⟨le_rfl, fun _ _ _ => rfl⟩
    | elem t a cs =>
      rw [diff_some_elem _ _ _ _ _ _ hoc] at hd
      split at hd
      · rw [replaceAt_some_eq] at hd
        split at hd
        · simp only [Option.some.injEq] at hd
          subst hd
          have hf := withChildren_set_frame L i (render (.elem t a cs))
          exact ⟨le_of_eq hf.1.symm, fun j hj _ => hf.2 j hj⟩
        · simp at hd
      · split at hd
        · simp only [Option.some.injEq] at hd
          subst hd
          exact ⟨le_rfl, fun _ _ _ => rfl⟩
        · split at hd
          · simp at hd
          · simp only [Option.some.injEq] at hd
            subst hd
            exact ⟨le_rfl, fun _ _ _ => rfl⟩
          · rename_i c' heq
            simp only [Option.some.injEq] at hd
            subst hd
            have hf := withChildren_set_frame L i c'
            exact ⟨le_of_eq hf.1.symm, fun j hj _ => hf.2 j hj⟩

/-- `diff` at a defined parent and `null` new node (non-`null` old). -/
theorem diff_some_vnull_new (p : DomNode) (o : VNode) (idx : Nat) (ho : o ≠ .vnull) :
    diff (some p) .vnull o idx =
      if idx < p.children.length then
        some (some (p.withChildren (p.children.eraseIdx idx)))
      else none := by
  rw [diff_some_not_null _ _ _ _ ho]

/-- With a defined parent, `diff` either throws or returns a defined parent
(it never turns the parent into `undefined`). -/
theorem diff_some_parent_ne_some_none (p : DomNode) (n o : VNode) (i : Nat) :
    diff (some p) n o i ≠ some none := by
  by_cases hoc : o = .vnull
  · subst hoc
    cases p <;> simp [diff]
  · cases n with
    | vnull =>
      rw [diff_some_vnull_new _ _ _ hoc]
      split <;> simp
    | text s =>
      rw [diff_some_text _ _ _ _ hoc, diffLeafTail_eq]
      split
      · rw [replaceAt_some_eq]
        split <;> simp
      · simp
    | num m =>
      rw [diff_some_num _ _ _ _ hoc, diffLeafTail_eq]
      split
      · rw [replaceAt_some_eq]
        split <;> simp
      · simp
    | elem t a cs =>
      rw [diff_some_elem _ _ _ _ _ _ hoc]
      split
      · rw [replaceAt_some_eq]
        split <;> simp
      · split
        · simp
        · split <;> simp

/-- The positional recursion over new children none of which is `null`
never removes a live child: the live child count cannot shrink, and every
position at or beyond `i + newCs.length` (in particular, every surplus old
child beyond the new child count) is untouched. -/
theorem diffList_frame : ∀ (newCs oldCs : List VNode) (i : Nat) (L L' : DomNode),
    VNode.vnull ∉ newCs →
    diffList (some L) newCs oldCs i = some (some L') →
    L.children.length ≤ L'.children.length ∧
    ∀ j, i + newCs.length ≤ j → j < L.children.length →
      L'.children.get? j = L.children.get? j := by
  intro newCs
  induction newCs with
  | nil =>
    intro oldCs i L L' _ hd
    simp [diffList] at hd
    subst hd
    exact ⟨le_rfl, fun _ _ _ => rfl⟩
  | cons nc rest ih =>
    intro oldCs i L L' hnn hd
    rw [diffList] at hd
    rcases hstep : diff (some L) nc (oldCs.getD i .vnull) i with _ | child1
    · rw [hstep] at hd
      simp at hd
    · rw [hstep] at hd
      cases child1 with
      | none => exact absurd hstep (diff_some_parent_ne_some_none L nc _ i)
      | some L1 =>
        have hnc : nc ≠ .vnull := fun h => hnn (h ▸ List.mem_cons_self nc rest)
        have hf1 := diff_step_frame L nc _ i L1 hnc hstep
        have hf2 := ih oldCs (i + 1) L1 L'
          (fun h => hnn (List.mem_cons_of_mem _ h)) hd
        refine ⟨le_trans hf1.1 hf2.1, ?_⟩
        intro j hj hjL
        have hj1 : i + 1 + rest.length ≤ j := by
          simp [List.length_cons] at hj
          omega
        have hjL1 : j < L1.children.length := lt_of_lt_of_le hjL hf1.1
        have hji : j ≠ i := by
          simp [List.length_cons] at hj
          omega
        rw [hf2.2 j hj1 hjL1, hf1.2 j hji hjL]

/-- If some child position of `p` is occupied, `p` is an element, so
reassembling with a new child list really installs that list. -/
theorem children_withChildren_of_get (p : DomNode) (idx : Nat) (L : DomNode)
    (cs : List DomNode) (h : p.children.get? idx = some L) :
    (p.withChildren cs).children = cs := by
  cases p with
  | textNode s => simp [DomNode.children] at h
  | element t a l cs0 => rfl

/-- **C10.**  When the ordinal `diff` recurses into an unchanged node pair,
the recursion iterates only over the new node's children, so if none of the
new children is `null`/`undefined`, no live child is removed: the live
child's child count cannot shrink, and every surplus live child at a
position at or beyond the new child count is left in place unchanged (in
particular, an old node with more children than the new node keeps its
surplus live children untouched). -/
theorem c10_surplus_live_children_untouched (p : DomNode) (tn : String)
    (an : List (String × AttrVal)) (newCs : List VNode) (o : VNode) (idx : Nat)
    (p' L L' : DomNode)
    (ho : o ≠ .vnull) (ht : tn ≠ "")
    (hch : changed o (.elem tn an newCs) = false)
    (hnn : VNode.vnull ∉ newCs)
    (hd : diff (some p) (.elem tn an newCs) o idx = some (some p'))
    (hL : p.children.get? idx = some L)
    (hL' : p'.children.get? idx = some L') :
    L.children.length ≤ L'.children.length ∧
    ∀ j, newCs.length ≤ j → j < L.children.length →
      L'.children.get? j = L.children.get? j := by
  rw [diff_some_elem _ _ _ _ _ _ ho] at hd
  rw [hch] at hd
  simp only [Bool.false_eq_true, if_false, ht] at hd
  rw [hL] at hd
  rcases hres : diffList (some L) newCs o.childrenOf 0 with _ | co
  · rw [hres] at hd
    simp at hd
  · rw [hres] at hd
    cases co with
    | none =>
      simp only [Option.some.injEq] at hd
      subst hd
      rw [hL'] at hL
      injection hL with hLL
      subst hLL
      exact ⟨le_rfl, fun _ _ _ => rfl⟩
    | some c' =>
      simp only [Option.some.injEq] at hd
      subst hd
      have hch1 : (p.withChildren (p.children.set idx c')).children =
          p.children.set idx c' := children_withChildren_of_get p idx L _ hL
      have hlt : idx < p.children.length := by
        rw [List.get?_eq_getElem?] at hL
        exact (List.getElem?_eq_some.mp hL).1
      have hLc : L' = c' := by
        rw [List.get?_eq_getElem?, hch1] at hL'
        rw [List.getElem?_set_self hlt] at hL'
        exact (Option.some.injEq _ _ ▸ hL').symm
      subst hLc
      have hframe := diffList_frame newCs o.childrenOf 0 L L' hnn hres
      exact ⟨hframe.1, fun j hj hjl => hframe.2 j (by omega) hjl⟩

/-- Witness for `c10_surplus_live_children_untouched`: re-rendering
`h('ul', {}, 'a')` over a live `<ul>` that still has two text children
leaves the surplus second child in place. -/
theorem c10_surplus_live_children_untouched_witness :
    (DomNode.element "ul" [] [] [DomNode.textNode "a", DomNode.textNode "b"]).children.length ≤
      (DomNode.element "ul" [] [] [DomNode.textNode "a", DomNode.textNode "b"]).children.length ∧
    ∀ j, ([VNode.text "a"] : List VNode).length ≤ j →
      j < (DomNode.element "ul" [] [] [DomNode.textNode "a", DomNode.textNode "b"]).children.length →
      (DomNode.element "ul" [] [] [DomNode.textNode "a", DomNode.textNode "b"]).children.get? j =
        (DomNode.element "ul" [] [] [DomNode.textNode "a", DomNode.textNode "b"]).children.get? j := by
  refine c10_surplus_live_children_untouched
    (DomNode.element "root" [] [] [DomNode.element "ul" [] [] [DomNode.textNode "a", DomNode.textNode "b"]])
    "ul" [] [VNode.text "a"] (VNode.elem "ul" [] [VNode.text "a", VNode.text "b"]) 0
    (DomNode.element "root" [] [] [DomNode.element "ul" [] [] [DomNode.textNode "a", DomNode.textNode "b"]])
    (DomNode.element "ul" [] [] [DomNode.textNode "a", DomNode.textNode "b"])
    (DomNode.element "ul" [] [] [DomNode.textNode "a", DomNode.textNode "b"])
    (by simp) (by simp) (by rfl) (by simp) ?_ (by rfl) (by rfl)
  simp [diff, diffList, diffLeafTail, replaceAt, changed, VNode.typeofStr, VNode.isPrim,
    VNode.typeField, VNode.hasAttrs, VNode.attrs, jsKeys, VNode.childrenOf, render,
    renderList, VNode.primStrictNe, DomNode.children, DomNode.withChildren,
    attrStrictEq, normToString, jsLookup, jsToString, domAttrs, domListeners, List.getD]

/-- **C5.**  Materialization rules of `render`, in order: `null`/`undefined`
yields an empty text node; a string or a number yields a text node holding
the (stringified) value; otherwise an element is created for the node's tag,
whose children are the materializations of the node's children in order,
whose listeners are exactly the callable attribute values (registered under
their key, with their function identity), and whose element attributes are
exactly the non-`null`, non-callable attribute values (stringified, as
`setAttribute` stores them) — `null`/`undefined`-valued attributes are
skipped entirely. -/
theorem c5_render_materialization :
    render .vnull = DomNode.textNode "" ∧
    (∀ s, render (.text s) = DomNode.textNode s) ∧
    (∀ n : Int, render (.num n) = DomNode.textNode (toString n)) ∧
    (∀ (t : String) (attrs : List (String × AttrVal)) (cs : List VNode),
      render (.elem t attrs cs) =
        DomNode.element t (domAttrs attrs) (domListeners attrs) (cs.map render)) ∧
    (∀ (attrs : List (String × AttrVal)) (k : String) (fid : Nat),
      (k, fid) ∈ domListeners attrs ↔ ∃ src, (k, AttrVal.fn fid src) ∈ attrs) ∧
    (∀ (attrs : List (String × AttrVal)) (k s : String),
      (k, s) ∈ domAttrs attrs ↔
        ∃ v, (k, v) ∈ attrs ∧ v ≠ AttrVal.null ∧
          (∀ fid src, v ≠ AttrVal.fn fid src) ∧ jsToString v = s) := by
  refine ⟨rfl, fun s => rfl, fun n => rfl,
    fun t attrs cs => by simp [render, renderList_eq_map], ?_, ?_⟩
  · intro attrs k fid
    rw [domListeners, List.mem_filterMap]
    constructor
    · rintro ⟨⟨k', v⟩, hmem, hv⟩
      cases v <;> simp at hv
      rcases hv with ⟨rfl, rfl⟩
      exact ⟨_, hmem⟩
    · rintro ⟨src, hmem⟩
      exact ⟨(k, .fn fid src), hmem, rfl⟩
  · intro attrs k s
    rw [domAttrs, List.mem_filterMap]
    constructor
    · rintro ⟨⟨k', v⟩, hmem, hv⟩
      cases v with
      | null => simp at hv
      | fn i src => simp at hv
      | str s0 =>
        simp [jsToString] at hv
        rcases hv with ⟨rfl, rfl⟩
        exact ⟨_, hmem, by simp, by simp, rfl⟩
      | num n0 =>
        simp [jsToString] at hv
        rcases hv with ⟨rfl, rfl⟩
        exact ⟨_, hmem, by simp, by simp, rfl⟩
      | bool b0 =>
        simp [jsToString] at hv
        rcases hv with ⟨rfl, rfl⟩
        exact ⟨_, hmem, by simp, by simp, rfl⟩
    · rintro ⟨v, hmem, hnull, hfn, rfl⟩
      refine ⟨(k, v), hmem, ?_⟩
      cases v with
      | null => exact absurd rfl hnull
      | fn i src => exact absurd rfl (hfn i src)
      | str s0 => rfl
      | num n0 => rfl
      | bool b0 => rfl

/-- Modelled from the spec's words (§4.1): children flattened exactly one
level deep — a nested sequence contributes its elements in order, any other
argument contributes itself.  (The spec's further clause that
`null`/`undefined` children collapse to an empty sequence is what the
counterexample refutes: the source keeps them.) -/
def specFlattenOne : List ChildArg → List VNode
  | [] => []
  | .single v :: rest => v :: specFlattenOne rest
  | .list vs :: rest => vs ++ specFlattenOne rest

/-- The source's `[].concat(...nodes)` computes exactly the spec's one-level
flattening. -/
theorem jsConcatSpread_eq_specFlattenOne (nodes : List ChildArg) :
    jsConcatSpread nodes = specFlattenOne nodes := by
  induction nodes with
  | nil => rfl
  | cons n rest ih =>
    cases n with
    | single v => simp [jsConcatSpread, specFlattenOne] at ih ⊢; exact ih
    | list vs => simp [jsConcatSpread, specFlattenOne] at ih ⊢; exact ih

/-- **C6 (counterexample).**  The claim says `null`/`undefined` children
collapse to an empty sequence.  They do not: the `null == nodes` guard in
`vNode` tests the rest parameter (always an array), never the individual
children, and `[].concat(null)` keeps the `null`.  `h('div', {}, null)` has
children `[null]`, not `[]`. -/
theorem c6_null_child_not_collapsed :
    (vNode "div" (some []) [ChildArg.single VNode.vnull]).childrenOf =
      [VNode.vnull] ∧
    ([VNode.vnull] : List VNode) ≠ ([] : List VNode) :=
  ⟨rfl, by simp⟩

/-- **C6 (amended).**  `vNode` returns a Node Model with the given tag,
whose attributes field is `{}` when the attribute mapping is
`null`/`undefined` and the given mapping otherwise, and whose children are
the given variadic children flattened exactly one level deep (nested
sequences collapse into a single ordered sequence); `null`/`undefined`
children are kept in place as `null` entries rather than collapsing to an
empty sequence. -/
theorem c6_vnode_shape (t : String) (a : List (String × AttrVal))
    (nodes : List ChildArg) :
    vNode t none nodes = VNode.elem t [] (specFlattenOne nodes) ∧
    vNode t (some a) nodes = VNode.elem t a (specFlattenOne nodes) := by
  rw [vNode, vNode, jsConcatSpread_eq_specFlattenOne]
  exact ⟨rfl, rfl⟩

/-- **C7 (counterexample).**  The claim says that for two nodes carrying
attribute mappings, `changed` is true exactly when the key counts differ or
some shared key's value differs after string normalization.  Counterexample:
`{a: 'x'}` versus `{b: 'x'}` have equal key counts and no shared key at all,
yet `changed` returns `true` — the `some` iterates over the first node's
keys and compares `'x'` against the missing (`undefined` → `''`) value on
the other side. -/
theorem c7_changed_counterexample :
    changed (.elem "div" [("a", .str "x")] []) (.elem "div" [("b", .str "x")] []) = true ∧
    ([("a", AttrVal.str "x")] : List (String × AttrVal)).length =
      ([("b", AttrVal.str "x")] : List (String × AttrVal)).length ∧
    ∀ k, k ∈ jsKeys [("a", AttrVal.str "x")] → k ∉ jsKeys [("b", AttrVal.str "x")] := by
  refine ⟨rfl, rfl, ?_⟩
  intro k hk
  simp [jsKeys] at hk
  subst hk
  simp [jsKeys]

/-- **C7 (amended).**  For two nodes that both carry an attribute mapping
(i.e. two element nodes), `changed` returns true exactly when the attribute
key counts differ, or some key **of the first node's mapping** has a value
that is not strictly equal to the second node's value under that key and
whose string normalization differs from it — where a missing key reads as
`undefined` and `null`/`undefined` values normalize to the empty string
before comparison (so a `null`-valued attribute compares equal to an
empty-string-valued one, and equal-stringifying values of different types
compare equal). -/
theorem c7_changed_attributes_iff (t1 t2 : String) (a1 a2 : List (String × AttrVal))
    (c1 c2 : List VNode) :
    changed (.elem t1 a1 c1) (.elem t2 a2 c2) = true ↔
      a1.length ≠ a2.length ∨
      ∃ k ∈ jsKeys a1,
        attrStrictEq (jsLookup a1 k) (jsLookup a2 k) = false ∧
        normToString (jsLookup a1 k) ≠ normToString (jsLookup a2 k) := by
  simp [changed, VNode.typeofStr, VNode.isPrim, VNode.typeField, VNode.hasAttrs,
    VNode.attrs, jsKeys, List.any_eq_true]

/-- The render scheduler's observable state: the pending dirty queue
(`items`, insertion-ordered), each component's `_dirty` flag (components
identified by number), and how many deferred flushes have been armed
(`defer(rerender)` calls). -/
structure SchedState where
  items : List Nat
  dirty : Nat → Bool
  defers : Nat

/-- `enqueueRender(component)` — src/unnamed/part_000 lines 320-324:

```
function enqueueRender(component) {
  if (!component._dirty && (component._dirty = true) && items.push(component) == 1) {
    (defer)(rerender);
  }
}
```

Short-circuit: if the dirty flag is already set nothing happens; otherwise
the flag is set, the component is pushed, and — since `push` returns the new
length — a deferred flush is armed exactly when the queue was empty. -/
def enqueueRender (s : SchedState) (c : Nat) : SchedState :=
  if s.dirty c then s
  else
    { items := s.items ++ [c],
      dirty := fun x => if x = c then true else s.dirty x,
      defers := if (s.items ++ [c]).length = 1 then s.defers + 1 else s.defers }

/-- **C9.**  Marking a component dirty when its dirty flag is already set is
a no-op — the component is not pushed again and no additional deferred flush
is armed (the state is returned unchanged); and consequently, whenever every
queued component is dirty and the queue has no duplicates, marking any
component dirty preserves the no-duplicates invariant, so every component
occurs at most once in the pending dirty queue. -/
theorem c9_enqueue_dirty_noop (s : SchedState) (c : Nat) :
    (s.dirty c = true → enqueueRender s c = s) ∧
    ((∀ x ∈ s.items, s.dirty x = true) → s.items.Nodup →
      (enqueueRender s c).items.Nodup) := by
  constructor
  · intro h
    simp [enqueueRender, h]
  · intro hall hnd
    by_cases h : s.dirty c = true
    · simp [enqueueRender, h, hnd]
    · have hc : c ∉ s.items := fun hm => h (hall c hm)
      simp [enqueueRender, h, List.nodup_append, hnd, hc]

/-- Witness for `c9_enqueue_dirty_noop`: a queue holding the dirty component
`5`; re-enqueueing `5` is a no-op, and enqueueing the clean component `7`
keeps the queue duplicate-free. -/
theorem c9_enqueue_dirty_noop_witness :
    enqueueRender ⟨[5], fun x => x == 5, 1⟩ 5 = ⟨[5], fun x => x == 5, 1⟩ ∧
    (enqueueRender ⟨[5], fun x => x == 5, 1⟩ 7).items.Nodup := by
  refine ⟨(c9_enqueue_dirty_noop ⟨[5], fun x => x == 5, 1⟩ 5).1 (by rfl),
    (c9_enqueue_dirty_noop ⟨[5], fun x => x == 5, 1⟩ 7).2 ?_ (by simp)⟩
  intro x hx
  simp at hx
  subst hx
  rfl

/-- A Component Instance as far as instantiation and recycling observe it:
its object identity (`instId` — every `new` allocates a fresh one), its
constructor identity, the three data slots, the `_dirty` flag, the queued
render callbacks, and the cached previous base DOM node (`nextBase`,
identified by number). -/
structure PComponent where
  instId : Nat
  ctorId : Nat
  props : Nat
  context : Nat
  state : List (String × Int)
  dirty : Bool
  renderCallbacks : List Nat
  nextBase : Option Nat
deriving DecidableEq, Repr

/-- The `while (i--) if (recyclerComponents[i].constructor === Ctor) ...`
scan of `createComponent`: starting from the end of the pool, find the first
(i.e. overall last) entry with the given constructor identity, and return it
together with the pool with that entry spliced out (`splice(i, 1)`); `none`
when no entry matches. -/
def splitLastMatch : List PComponent → Nat → Option (PComponent × List PComponent)
  | [], _ => none
  | c :: cs, k =>
    match splitLastMatch cs k with
    | some (m, rest) => some (m, c :: rest)
    | none => if c.ctorId = k then some (c, cs) else none

/-- `createComponent(Ctor, props, context)` — src/unnamed/part_000 lines
654-676:

```
function createComponent(Ctor, props, context) {
  var inst, i = recyclerComponents.length;
  if (Ctor.prototype && Ctor.prototype.render) {
    inst = new Ctor(props, context);
    Component.call(inst, props, context);
  } else {
    inst = new Component(props, context);
    inst.constructor = Ctor;
    inst.render = doRender;
  }
  while (i--) {
    if (recyclerComponents[i].constructor === Ctor) {
      inst.nextBase = recyclerComponents[i].nextBase;
      recyclerComponents.splice(i, 1);
      return inst;
    }
  }
  return inst;
}
```

`Ctor` is identified by `ctorId`; `isClassCtor` is the
`Ctor.prototype && Ctor.prototype.render` test, and `ctorState` is the state
a class constructor leaves on `this` (`none` when it leaves it unset;
`Component.call`'s `this.state = this.state || {}` then installs `{}` — the
plain-`Component` path always starts with `{}`).  `freshId` is the object
identity of the newly allocated instance: both branches allocate with `new`.
Returns the instance and the updated recycler pool. -/
def createComponent (ctorId : Nat) (isClassCtor : Bool)
    (ctorState : Option (List (String × Int))) (props context : Nat)
    (pool : List PComponent) (freshId : Nat) : PComponent × List PComponent :=
  let inst : PComponent :=
    { instId := freshId, ctorId := ctorId, props := props, context := context,
      state := if isClassCtor then ctorState.getD [] else [],
      dirty := true, renderCallbacks := [], nextBase := none }
  match splitLastMatch pool ctorId with
  | some (m, rest) => ({ inst with nextBase := m.nextBase }, rest)
  | none => (inst, pool)

/-- A successful scan returns an entry of the pool with the requested
constructor identity. -/
theorem splitLastMatch_spec (pool : List PComponent) (k : Nat) (m : PComponent)
    (rest : List PComponent) (h : splitLastMatch pool k = some (m, rest)) :
    m.ctorId = k ∧ m ∈ pool := by
  induction pool generalizing rest with
  | nil => simp [splitLastMatch] at h
  | cons c cs ih =>
    rw [splitLastMatch] at h
    rcases hrec : splitLastMatch cs k with _ | ⟨m', rest'⟩
    · rw [hrec] at h
      by_cases hck : c.ctorId = k
      · rw [if_pos hck] at h
        simp only [Option.some.injEq, Prod.mk.injEq] at h
        obtain ⟨rfl, rfl⟩ := h
        exact ⟨hck, List.mem_cons_self _ _⟩
      · rw [if_neg hck] at h
        simp at h
    · rw [hrec] at h
      simp only [Option.some.injEq, Prod.mk.injEq] at h
      rcases h with ⟨rfl, rfl⟩
      have := ih _ hrec
      exact ⟨this.1, List.mem_cons_of_mem _ this.2⟩

/-- A pool with no entry of the requested constructor identity yields no
match. -/
theorem splitLastMatch_none (pool : List PComponent) (k : Nat)
    (h : ∀ c ∈ pool, c.ctorId ≠ k) : splitLastMatch pool k = none := by
  induction pool with
  | nil => rfl
  | cons c cs ih =>
    rw [splitLastMatch, ih (fun x hx => h x (List.mem_cons_of_mem _ hx))]
    simp [h c (List.mem_cons_self _ _)]

/-- **C2 (counterexample).**  The claim says that a pooled, previously
unmounted instance of the same constructor identity is itself reused as the
new Component Instance.  It is not: `createComponent` always allocates a
fresh instance (`new Ctor` or `new Component`) and, when the pool holds a
matching entry, only copies that entry's cached `nextBase` DOM node onto the
fresh instance and splices the entry out of the pool.  Concretely, with a
pooled instance of identity `7` (constructor `5`, cached base `42`),
instantiating constructor `5` yields the freshly allocated instance `99`,
not instance `7` — carrying over only `nextBase = 42`. -/
theorem c2_pooled_instance_not_reused :
    (createComponent 5 false none 0 0
        [{ instId := 7, ctorId := 5, props := 0, context := 0, state := [],
           dirty := false, renderCallbacks := [], nextBase := some 42 }] 99).1.instId = 99 ∧
    (99 : Nat) ≠ 7 ∧
    (createComponent 5 false none 0 0
        [{ instId := 7, ctorId := 5, props := 0, context := 0, state := [],
           dirty := false, renderCallbacks := [], nextBase := some 42 }] 99).1.nextBase =
      some 42 ∧
    (createComponent 5 false none 0 0
        [{ instId := 7, ctorId := 5, props := 0, context := 0, state := [],
           dirty := false, renderCallbacks := [], nextBase := some 42 }] 99).2 = [] := by
  refine ⟨rfl, by decide, rfl, rfl⟩

/-- **C2 (amended).**  `createComponent` always constructs a fresh Component
Instance (with empty state on the plain-`Component` path); when the recycle
pool contains an entry of the same constructor identity, the most recently
pooled such entry is removed from the pool and only its cached base DOM node
(`nextBase`) is transferred to the fresh instance; when no entry matches,
the pool is untouched and the fresh instance starts with no cached base. -/
theorem c2_create_component_fresh (ctorId : Nat) (isClass : Bool)
    (ctorState : Option (List (String × Int))) (props context freshId : Nat)
    (pool : List PComponent) :
    ((createComponent ctorId isClass ctorState props context pool freshId).1.instId =
      freshId) ∧
    (isClass = false →
      (createComponent ctorId isClass ctorState props context pool freshId).1.state = []) ∧
    ((∀ c ∈ pool, c.ctorId ≠ ctorId) →
      (createComponent ctorId isClass ctorState props context pool freshId).1.nextBase =
        none ∧
      (createComponent ctorId isClass ctorState props context pool freshId).2 = pool) ∧
    (∀ m rest, splitLastMatch pool ctorId = some (m, rest) →
      m.ctorId = ctorId ∧ m ∈ pool ∧
      (createComponent ctorId isClass ctorState props context pool freshId).1.nextBase =
        m.nextBase ∧
      (createComponent ctorId isClass ctorState props context pool freshId).2 = rest) := by
  refine ⟨?_, ?_, ?_, ?_⟩
  · rw [createComponent]
    rcases h : splitLastMatch pool ctorId with _ | ⟨m, rest⟩ <;> simp
  · intro hcls
    rw [createComponent]
    rcases h : splitLastMatch pool ctorId with _ | ⟨m, rest⟩ <;> simp [hcls]
  · intro hnone
    rw [createComponent, splitLastMatch_none pool ctorId hnone]
    exact ⟨rfl, rfl⟩
  · intro m rest h
    have hspec := splitLastMatch_spec pool ctorId m rest h
    rw [createComponent, h]
    exact ⟨hspec.1, hspec.2, rfl, rfl⟩

/-- Witness for `c2_create_component_fresh`: instantiating constructor `3`
over a two-entry pool whose matching entry is the second one. -/
theorem c2_create_component_fresh_witness :
    (createComponent 3 false none 1 2
        [{ instId := 10, ctorId := 4, props := 0, context := 0, state := [],
           dirty := false, renderCallbacks := [], nextBase := some 8 },
         { instId := 11, ctorId := 3, props := 0, context := 0, state := [],
           dirty := false, renderCallbacks := [], nextBase := some 9 }] 50).1.instId = 50 ∧
    (createComponent 3 false none 1 2
        [{ instId := 10, ctorId := 4, props := 0, context := 0, state := [],
           dirty := false, renderCallbacks := [], nextBase := some 8 },
         { instId := 11, ctorId := 3, props := 0, context := 0, state := [],
           dirty := false, renderCallbacks := [], nextBase := some 9 }] 50).1.state = [] ∧
    (createComponent 3 false none 1 2
        [{ instId := 10, ctorId := 4, props := 0, context := 0, state := [],
           dirty := false, renderCallbacks := [], nextBase := some 8 },
         { instId := 11, ctorId := 3, props := 0, context := 0, state := [],
           dirty := false, renderCallbacks := [], nextBase := some 9 }] 50).1.nextBase =
      some 9 := by
  have h := c2_create_component_fresh 3 false none 1 2 50
    [{ instId := 10, ctorId := 4, props := 0, context := 0, state := [],
       dirty := false, renderCallbacks := [], nextBase := some 8 },
     { instId := 11, ctorId := 3, props := 0, context := 0, state := [],
       dirty := false, renderCallbacks := [], nextBase := some 9 }]
  have h4 := h.2.2.2
    { instId := 11, ctorId := 3, props := 0, context := 0, state := [],
      dirty := false, renderCallbacks := [], nextBase := some 9 }
    [{ instId := 10, ctorId := 4, props := 0, context := 0, state := [],
       dirty := false, renderCallbacks := [], nextBase := some 8 }] (by rfl)
  exact ⟨h.1, h.2.1 rfl, h4.2.2.1⟩

/-- An observable action of one `renderComponent` pass, in the order it
happens: applying `getDerivedStateFromProps`, calling
`shouldComponentUpdate`, calling `componentWillUpdate`, invoking the render
function, queueing the component for `componentDidMount` (`mounts.push`),
calling `componentDidUpdate`, running one queued render callback, and
running `flushMounts`. -/
inductive REvent where
  | derivedStateApplied
  | scuCalled
  | cwuCalled
  | renderCalled
  | mountQueued
  | cduCalled
  | callbackRun (id : Nat)
  | flushMountsRun
deriving DecidableEq, Repr

/-- A Component Instance as far as `renderComponent`'s control flow observes
it.  `props`/`state`/`context` are opaque values; `base` is the live node
this instance currently owns (`none` before first mount — its presence is
the `isUpdate` test); the lifecycle hooks are modelled by presence flags,
with `shouldComponentUpdate` as an optional boolean function of
`(props, state, context)` and `getDerivedStateFromProps` as a merge
function. -/
structure CompState where
  props : Nat
  state : Nat
  context : Nat
  prevProps : Option Nat
  prevState : Option Nat
  prevContext : Option Nat
  base : Option Nat
  nextBase : Option Nat
  dirty : Bool
  disable : Bool
  renderCallbacks : List Nat
  hasGdsfp : Bool
  gdsfp : Nat → Nat → Nat
  scu : Option (Nat → Nat → Nat → Bool)
  hasCwu : Bool
  hasCdu : Bool

/-- `renderComponent(component, renderMode, mountAll, isChild)` —
src/unnamed/part_000 lines 720-848 — as a control-flow skeleton:

* line 721: bail out when `_disable` is set;
* lines 723-731: capture `props`/`state`/`context`, the `prevX || X`
  snapshots, and `isUpdate = component.base`;
* lines 739-742: when `getDerivedStateFromProps` exists, merge the derived
  state into `component.state` (this happens even for a pass that will
  skip);
* lines 744-756: on an update, when `renderMode !== 2` and a
  `shouldComponentUpdate` hook exists, call it with the new
  `(props, state, context)`; `skip = true` exactly when it returns `false`;
  otherwise call `componentWillUpdate` when present;
* lines 758-759: clear `prevProps`/`prevState`/`prevContext`/`nextBase` and
  the `_dirty` flag;
* lines 761-834: when not skipped, invoke the render function
  (`rendered = component.render(props, state, context)`, modelled by the
  `renderCalled` event) and run the rest of the block — nested-component
  driving, the DOM diff and base management — which this skeleton abstracts
  as the `inner` argument, since the skip path never reaches it;
* lines 836-843: `if (!isUpdate || mountAll) mounts.push(component); else
  if (!skip && componentDidUpdate) componentDidUpdate(...)`;
* lines 845-846: `while (_renderCallbacks.length) pop().call(component)` —
  drain all queued callbacks, last-queued first, in every path;
* line 847: `if (!diffLevel && !isChild) flushMounts()`.

Returns the updated component and the trace of observable actions. -/
def renderComponent (c : CompState) (renderMode : Nat) (mountAll : Bool)
    (isChild : Bool) (diffLevel : Nat)
    (inner : CompState → CompState × List REvent) : CompState × List REvent :=
  if c.disable then (c, [])
  else
    let props := c.props
    let context := c.context
    let isUpdate := c.base.isSome
    let state := if c.hasGdsfp then c.gdsfp props c.state else c.state
    let c1 := { c with state := state }
    let ev1 : List REvent := if c.hasGdsfp then [.derivedStateApplied] else []
    let scuFires := isUpdate && (renderMode != 2) && c.scu.isSome
    let skip := scuFires &&
      (match c.scu with
       | some f => !(f props state context)
       | none => false)
    let ev2 : List REvent :=
      (if scuFires then [.scuCalled] else []) ++
      (if isUpdate && !skip && c.hasCwu then [.cwuCalled] else [])
    let c2 := { c1 with
      prevProps := none
      prevState := none
      prevContext := none
      nextBase := none
      dirty := false }
    let inres := if skip then (c2, ([] : List REvent))
      else
        let r := inner c2
        (r.1, REvent.renderCalled :: r.2)
    let c3 := inres.1
    let ev3 := inres.2
    let ev4 : List REvent :=
      if !isUpdate || mountAll then [.mountQueued]
      else if !skip && c.hasCdu then [.cduCalled]
      else []
    let ev5 := c3.renderCallbacks.reverse.map REvent.callbackRun
    let c4 := { c3 with renderCallbacks := [] }
    let ev6 : List REvent := if diffLevel = 0 && !isChild then [.flushMountsRun] else []
    (c4, ev1 ++ ev2 ++ ev3 ++ ev4 ++ ev5 ++ ev6)

/-- **C8.**  On a component update (the component has a live base and the
render mode is not the forced mode 2), if the `shouldComponentUpdate` hook
exists and returns `false` for the new props/state/context, then the pass
invokes neither the render function nor the `componentDidUpdate` hook, but
it still drains the queued render callbacks — every callback queued by a
state-setting call is run, and the queue is left empty. -/
theorem c8_skip_still_drains_callbacks (c : CompState) (rm : Nat)
    (mountAll isChild : Bool) (dl : Nat)
    (inner : CompState → CompState × List REvent) (f : Nat → Nat → Nat → Bool)
    (hdis : c.disable = false) (hupd : c.base.isSome = true) (hrm : rm ≠ 2)
    (hscu : c.scu = some f)
    (hfalse : f c.props (if c.hasGdsfp then c.gdsfp c.props c.state else c.state)
      c.context = false) :
    REvent.renderCalled ∉ (renderComponent c rm mountAll isChild dl inner).2 ∧
    REvent.cduCalled ∉ (renderComponent c rm mountAll isChild dl inner).2 ∧
    (∀ id ∈ c.renderCallbacks,
      REvent.callbackRun id ∈ (renderComponent c rm mountAll isChild dl inner).2) ∧
    (renderComponent c rm mountAll isChild dl inner).1.renderCallbacks = [] := by
  have hrm2 : (rm != 2) = true := by simpa using hrm
  cases hg : c.hasGdsfp <;> cases hma : mountAll <;> cases hic : isChild <;>
    by_cases hdl : dl = 0 <;>
      simp_all [renderComponent, List.mem_append, List.mem_map, List.mem_reverse]

/-- A concrete component for exercising the skip path: mounted (base `1`),
enabled, with a `shouldComponentUpdate` that returns `false`, a
`componentDidUpdate` hook, and two queued render callbacks. -/
def c8ExampleComp : CompState :=
  { props := 0, state := 0, context := 0, prevProps := none, prevState := none,
    prevContext := none, base := some 1, nextBase := none, dirty := true,
    disable := false, renderCallbacks := [3, 4], hasGdsfp := false,
    gdsfp := fun p _ => p, scu := some (fun _ _ _ => false), hasCwu := true,
    hasCdu := true }

/-- Witness for `c8_skip_still_drains_callbacks` at `c8ExampleComp`, a
non-forced update (`renderMode = 1`). -/
theorem c8_skip_still_drains_callbacks_witness :
    REvent.renderCalled ∉
      (renderComponent c8ExampleComp 1 false false 0 (fun s => (s, []))).2 ∧
    REvent.cduCalled ∉
      (renderComponent c8ExampleComp 1 false false 0 (fun s => (s, []))).2 ∧
    REvent.callbackRun 3 ∈
      (renderComponent c8ExampleComp 1 false false 0 (fun s => (s, []))).2 ∧
    (renderComponent c8ExampleComp 1 false false 0 (fun s => (s, []))).1.renderCallbacks =
      [] := by
  have h := c8_skip_still_drains_callbacks c8ExampleComp 1 false false 0
    (fun s => (s, [])) (fun _ _ _ => false) rfl rfl (by decide) rfl rfl
  exact ⟨h.1, h.2.1, h.2.2.1 3 (by simp [c8ExampleComp]), h.2.2.2⟩
